import Mathlib

/-!
Verification of the ledger core of `src/src/InventoryManager.jsx`
(Mobile-Accessories credit stock manager).

Modelling conventions for the shallow embedding:

* JavaScript numbers that the ledger logic produces are integers
  (`parseInt` results, quantities) or decimal values (`parseFloat`
  results, rates and amounts).  `NaN` is representable (`parseInt` /
  `parseFloat` of a non-numeric string), so JS numbers are modelled as
  `Option Int` / `Option JsDec` with `none` playing the role of `NaN`;
  `JsDec` is an exact decimal (integer mantissa over a power of ten),
  kept unnormalised so that every operation is kernel-computable.
  Every JS comparison `x < y`, `x > y`, `x <= 0` is `false` when an
  operand is `NaN`, which the `jsGtNum` / `jsLeZero...` helpers mirror.
* Timestamps: the code stores `new Date().toISOString()` strings and
  compares them through `new Date(s)`, i.e. through the underlying
  millisecond value, and `toISOString` / `Date` parsing round-trip on
  that value.  Dates are therefore modelled by their millisecond value
  (a `Nat` passed to each operation as `nowMs`).
* `Array.prototype.sort` is stable (ECMAScript 2019); a stable sort by
  the comparator `(a, b) => new Date(b.saleDate) - new Date(a.saleDate)`
  is modelled by `List.insertionSort` with the matching order.
* `(x).toFixed(2)` followed by `parseFloat` is modelled by exact
  rational rounding to two decimals (ties away from zero); the
  double-precision artifacts of the real `toFixed` are outside this
  embedding.
* React state setters are modelled by explicit state passing on
  `AppState`; a validation failure performs no state update, so the
  operation returns the unchanged state with `ok := false`.
-/

/-- Numeric value of a decimal digit character (JS `charCode - 48`). -/
def digitVal (c : Char) : Nat := c.toNat - 48

/-- Value of a big-endian list of decimal digit characters. -/
def digitsToNat (l : List Char) : Nat := l.foldl (fun a c => 10 * a + digitVal c) 0

/-- Longest decimal-digit run at the front of the characters; `none` when
there is no digit, matching `parseInt` returning `NaN`. -/
def readDigits (l : List Char) : Option Nat :=
  let ds := l.takeWhile Char.isDigit
  if ds.isEmpty then none else some (digitsToNat ds)

/-- JS `parseInt(s, 10)`: skip leading spaces, optional sign, then the
longest digit run; `NaN` (here `none`) when no digit follows. -/
def jsParseInt (s : String) : Option Int :=
  match s.data.dropWhile (· == ' ') with
  | [] => none
  | c :: rest =>
    if c = '-' then (readDigits rest).map (fun m => -(m : Int))
    else if c = '+' then (readDigits rest).map (fun m => (m : Int))
    else (readDigits (c :: rest)).map (fun m => (m : Int))

/-- An exact decimal number `mant / 10 ^ scale`.  The representation is
not normalised; `val` below gives the rational value it denotes. -/
structure JsDec where
  mant : Int
  scale : Nat
deriving DecidableEq

/-- The rational value a `JsDec` denotes. -/
def JsDec.val (d : JsDec) : ℚ := (d.mant : ℚ) / (10 : ℚ) ^ d.scale

/-- The sign of the mantissa is the sign of the denoted value. -/
theorem JsDec.mant_nonpos_iff (d : JsDec) : d.mant ≤ 0 ↔ d.val ≤ 0 := by
  have hp : (0 : ℚ) < (10 : ℚ) ^ d.scale := by positivity
  rw [JsDec.val, div_nonpos_iff]
  constructor
  · intro h
    exact Or.inr ⟨by exact_mod_cast h, le_of_lt hp⟩
  · intro h
    rcases h with ⟨_, h2⟩ | ⟨h1, _⟩
    · exact absurd hp (not_lt.mpr h2)
    · exact_mod_cast h1

/-- Magnitude part of JS `parseFloat`: digits, optional point, digits. -/
def readFloatMag (l : List Char) : Option JsDec :=
  let ip := l.takeWhile Char.isDigit
  let rest := l.drop ip.length
  let fp := match rest with
    | '.' :: r => r.takeWhile Char.isDigit
    | _ => []
  if ip.isEmpty && fp.isEmpty then none
  else some ⟨(digitsToNat ip * 10 ^ fp.length + digitsToNat fp : Nat), fp.length⟩

/-- JS `parseFloat(s)` on the decimal fragment reachable through the
form's input filter (digits and a single point; exponents and
`Infinity` cannot reach the ledger and are omitted). -/
def jsParseFloat (s : String) : Option JsDec :=
  match s.data.dropWhile (· == ' ') with
  | [] => none
  | c :: rest =>
    if c = '-' then (readFloatMag rest).map (fun d => ⟨-d.mant, d.scale⟩)
    else if c = '+' then readFloatMag rest
    else readFloatMag (c :: rest)

/-- Decimal digits of `n`, most significant first; `fuel`-based so that
it reduces by `rfl` in the kernel. -/
def natToDecAux : Nat → Nat → List Char
  | 0, _ => []
  | fuel + 1, n =>
    if n = 0 then [] else natToDecAux fuel (n / 10) ++ [Char.ofNat (48 + n % 10)]

/-- JS `Number.prototype.toString()` on a nonnegative integer value. -/
def natToDecimalString (n : Nat) : String :=
  if n = 0 then "0" else ⟨natToDecAux (n + 1) n⟩

/-- JS `Number.prototype.toString()` on an integer value. -/
def intToString (i : Int) : String :=
  if i < 0 then "-" ++ natToDecimalString i.natAbs else natToDecimalString i.toNat

/-- Round `num / den` (with `den > 0`) to the nearest integer, ties away
from zero.  Integer division on nonnegative operands is a floor, and
`floor((2 * p + d) / (2 * d))` rounds `p / d` half-up. -/
def roundHalfAway (num : Int) (den : Nat) : Int :=
  if 0 ≤ num then (2 * num + (den : Int)) / (2 * (den : Int))
  else -((2 * (-num) + (den : Int)) / (2 * (den : Int)))

/-- Round a decimal to 2 decimal places, ties away from zero (the
rounding `toFixed(2)` performs on the exact value; see the header note). -/
def round2 (x : JsDec) : JsDec :=
  ⟨roundHalfAway (100 * x.mant) (10 ^ x.scale), 2⟩

/-- Source `calculateAmount(quantity, rate)`:
`(parseFloat(quantity) * parseFloat(rate)).toFixed(2)` consumed through
`parseFloat`; `parseFloat` of a number argument is the identity
(`NaN` included), and a `NaN` factor makes the result `NaN`. -/
def calculateAmount (quantity : Option JsDec) (rate : Option JsDec) : Option JsDec :=
  match quantity, rate with
  | some q, some r => some (round2 ⟨q.mant * r.mant, q.scale + r.scale⟩)
  | _, _ => none

/-- Coerce a JS integer value (possibly `NaN`) to a JS decimal value. -/
def intOptToDec (x : Option Int) : Option JsDec := x.map (fun n => ⟨n, 0⟩)

/-- JS `x <= 0` on an integer value: `false` when `x` is `NaN`. -/
def jsLeZeroInt (x : Option Int) : Bool :=
  match x with
  | some v => v ≤ 0
  | none => false

/-- JS `x <= 0` on a decimal value: `false` when `x` is `NaN` (the sign
of the mantissa is the sign of the value, `JsDec.mant_nonpos_iff`). -/
def jsLeZeroDec (x : Option JsDec) : Bool :=
  match x with
  | some v => v.mant ≤ 0
  | none => false

/-- JS `n > x` for an integer `n` and a JS value `x`: `false` when `x`
is `NaN`. -/
def jsGtNum (n : Int) (x : Option Int) : Bool :=
  match x with
  | some v => v < n
  | none => false

/-- JS `x > 0`: `false` when `x` is `NaN`. -/
def jsPos (x : Option Int) : Bool :=
  match x with
  | some v => 0 < v
  | none => false

/-- JS `x - n` for a JS value `x` and integer `n` (`NaN` propagates). -/
def jsSub (x : Option Int) (n : Int) : Option Int := x.map (· - n)

/-- An inventory line as built by `handleAddItem` / restored by import. -/
structure InventoryLine where
  id : String
  serialNo : String
  code : String
  group : String
  name : String
  quantity : Option Int
  rate : Option JsDec
  amount : Option JsDec
  dateAdded : Nat
deriving DecidableEq

/-- A sale record as built by `handleRecordSale` / restored by import. -/
structure SaleRecord where
  id : String
  inventoryId : String
  serialNo : String
  code : String
  group : String
  name : String
  rate : Option JsDec
  quantitySold : Int
  amountSold : Option JsDec
  saleDate : Nat
deriving DecidableEq

/-- The two ledger collections held in React state. -/
structure AppState where
  inventory : List InventoryLine
  sales : List SaleRecord
deriving DecidableEq

/-- Result of a mutating operation: `ok = false` means the validation
guard fired and no state setter ran, so `state` is the input state. -/
structure OpOutcome where
  ok : Bool
  state : AppState
deriving DecidableEq

/-- Order used by the sales comparator
`(a, b) => new Date(b.saleDate) - new Date(a.saleDate)`:
`a` sorts no later than `b` when `a`'s date is the newer one. -/
def salesLe (a b : SaleRecord) : Prop := b.saleDate ≤ a.saleDate

instance : DecidableRel salesLe := fun a b => Nat.decLe b.saleDate a.saleDate

instance : IsTotal SaleRecord salesLe :=
  ⟨fun a b => Or.symm (Nat.le_total a.saleDate b.saleDate)⟩

instance : IsTrans SaleRecord salesLe :=
  ⟨fun _ _ _ hab hbc => Nat.le_trans hbc hab⟩

/-- `sales.sort((a, b) => new Date(b.saleDate) - new Date(a.saleDate))`:
stable sort, newest first. -/
def sortSalesDesc (l : List SaleRecord) : List SaleRecord := l.insertionSort salesLe

/-- Maximum parsable serial number over the inventory: the `forEach`
accumulation in `getNextSerialNo` (`maxSerial` starts at 0; a parsed
value replaces it only when strictly greater, so non-numeric and
negative serials are ignored). -/
def serialStep (m : Int) (item : InventoryLine) : Int :=
  match jsParseInt item.serialNo with
  | some v => if v > m then v else m
  | none => m

/-- The accumulated `maxSerial` of the source `getNextSerialNo`. -/
def maxSerial (inventory : List InventoryLine) : Int :=
  inventory.foldl serialStep 0

/-- Source `getNextSerialNo`: `(maxSerial + 1).toString()`. -/
def getNextSerialNo (inventory : List InventoryLine) : String :=
  intToString (maxSerial inventory + 1)

/-- The stock-entry form state consumed by `handleAddItem`.  The form's
`id` field is present in `initialState` as `''` and is never written by
`handleChange`; it is always the empty string, so it is not carried
here (see `handleAddItem` for where the source reads it). -/
structure NewItemForm where
  code : String
  group : String
  name : String
  quantity : String
  rate : String
deriving DecidableEq

/-- Source `handleAddItem`.  Validation:
`!code || !name || parsedQuantity <= 0 || parsedRate <= 0` (all JS
comparisons are `false` on `NaN`).  On success the new line is appended.
The object literal is
`{ id: newId, serialNo: nextSerialNo, ...newItem, quantity: parsedQuantity, ... }`:
the `...newItem` spread comes after `id: newId` and therefore overrides
it with the form's `id` field, which is always `''`; the computed
`newId = Date.now().toString()` is dead.  `serialNo` survives the
spread because the form state has no `serialNo` property. -/
def handleAddItem (s : AppState) (newItem : NewItemForm) (nowMs : Nat) : OpOutcome :=
  let parsedQuantity := jsParseInt newItem.quantity
  let parsedRate := jsParseFloat newItem.rate
  if newItem.code = "" ∨ newItem.name = "" ∨
      jsLeZeroInt parsedQuantity ∨ jsLeZeroDec parsedRate then
    ⟨false, s⟩
  else
    let amount := calculateAmount (intOptToDec parsedQuantity) parsedRate
    let nextSerialNo := getNextSerialNo s.inventory
    let itemToAdd : InventoryLine :=
      { id := ""
        serialNo := nextSerialNo
        code := newItem.code
        group := newItem.group
        name := newItem.name
        quantity := parsedQuantity
        rate := parsedRate
        amount := amount
        dateAdded := nowMs }
    ⟨true, ⟨s.inventory ++ [itemToAdd], s.sales⟩⟩

/-- Source `handleRecordSale(item)` with the sale quantity taken from
`saleQuantities[item.id] || 0`.  Guard:
`quantityToSell <= 0 || quantityToSell > item.quantity`.  On success the
inventory is updated (quantity replaced when remaining is `> 0`,
every line whose `id` equals `item.id` filtered out otherwise) and the
new sale is prepended and the whole sales array re-sorted. -/
def handleRecordSale (s : AppState) (item : InventoryLine) (quantityToSell : Int)
    (nowMs : Nat) : OpOutcome :=
  if quantityToSell ≤ 0 ∨ jsGtNum quantityToSell item.quantity then
    ⟨false, s⟩
  else
    let newRemainingQuantity := jsSub item.quantity quantityToSell
    let amountSold := calculateAmount (some ⟨quantityToSell, 0⟩) item.rate
    let newInventory :=
      if jsPos newRemainingQuantity then
        s.inventory.map (fun invItem =>
          if invItem.id = item.id then { invItem with quantity := newRemainingQuantity }
          else invItem)
      else
        s.inventory.filter (fun invItem => invItem.id ≠ item.id)
    let newSale : SaleRecord :=
      { id := natToDecimalString nowMs
        inventoryId := item.id
        serialNo := item.serialNo
        code := item.code
        group := item.group
        name := item.name
        rate := item.rate
        quantitySold := quantityToSell
        amountSold := amountSold
        saleDate := nowMs }
    ⟨true, ⟨newInventory, sortSalesDesc (newSale :: s.sales)⟩⟩

/-- Which collection `handleDeleteRecords` clears (`deleteType`). -/
inductive DeleteType where
  | salesHistory
  | inventoryStock
deriving DecidableEq

/-- Source `handleDeleteRecords`: clears exactly one collection. -/
def handleDeleteRecords (s : AppState) : DeleteType → AppState
  | .salesHistory => ⟨s.inventory, []⟩
  | .inventoryStock => ⟨[], s.sales⟩

/-- A field of the parsed backup JSON that import inspects with
`Array.isArray`: either an array of records or any non-array value. -/
inductive JsonField (α : Type) where
  | arr (items : List α)
  | nonArray
deriving DecidableEq

/-- The parsed backup payload (`loadedData`). -/
structure BackupData where
  inventory : JsonField InventoryLine
  sales : JsonField SaleRecord
  version : JsDec
  timestamp : Nat
deriving DecidableEq

/-- JSON image of one JS numeric field: `JSON.stringify` writes a finite
number as a JSON number and `NaN` as `null` (and `JSON.parse` returns
exactly what was written, so a `NaN` field comes back as the JS value
`null`, not as `NaN`). -/
inductive JsonNum (α : Type) where
  | num (a : α)
  | null
deriving DecidableEq

/-- What `JSON.stringify` writes for a JS numeric field (`none = NaN`). -/
def encodeNum {α : Type} (x : Option α) : JsonNum α :=
  match x with
  | some v => JsonNum.num v
  | none => JsonNum.null

/-- A numeric field survives stringification as a number exactly when it
is not `NaN`. -/
theorem encodeNum_num_iff {α : Type} (x : Option α) (v : α) :
    encodeNum x = JsonNum.num v ↔ x = some v := by
  cases x <;> simp [encodeNum]

/-- A numeric field is written as `null` exactly when it is `NaN`. -/
theorem encodeNum_eq_null_iff {α : Type} (x : Option α) :
    encodeNum x = JsonNum.null ↔ x = none := by
  cases x <;> simp [encodeNum]

/-- An inventory line whose numeric fields are all finite numbers: on
such a line `JSON.stringify` / `JSON.parse` is value-faithful (strings,
finite numbers and arrays round-trip; a `NaN` field instead comes back
as `null`, which is a different JS value — see `encodeNum`). -/
def lineJsonSafe (l : InventoryLine) : Bool :=
  l.quantity.isSome && l.rate.isSome && l.amount.isSome

/-- A sale record whose numeric fields are all finite numbers. -/
def saleJsonSafe (r : SaleRecord) : Bool :=
  r.rate.isSome && r.amountSold.isSome

/-- `lineJsonSafe` is exactly the condition under which no field of the
line is stringified to `null`. -/
theorem lineJsonSafe_iff (l : InventoryLine) :
    lineJsonSafe l = true ↔
      encodeNum l.quantity ≠ JsonNum.null ∧ encodeNum l.rate ≠ JsonNum.null
        ∧ encodeNum l.amount ≠ JsonNum.null := by
  obtain ⟨lid, lsn, lc, lg, ln, q, r, a, d⟩ := l
  cases q <;> cases r <;> cases a <;> simp [lineJsonSafe, encodeNum]

/-- `saleJsonSafe` is exactly the condition under which no field of the
sale record is stringified to `null`. -/
theorem saleJsonSafe_iff (r : SaleRecord) :
    saleJsonSafe r = true ↔
      encodeNum r.rate ≠ JsonNum.null ∧ encodeNum r.amountSold ≠ JsonNum.null := by
  obtain ⟨rid, riv, rsn, rc, rg, rn, rr, rq, ra, rd⟩ := r
  cases rr <;> cases ra <;> simp [saleJsonSafe, encodeNum]

/-- A ledger state on which the backup JSON codec is value-faithful:
every numeric field of every record is a finite number, so no field is
turned into `null` by `JSON.stringify` / `JSON.parse`.  (States outside
this set are reachable — AddStock stores a `NaN` quantity when the
input does not parse, see `C7_quantity_nan_passes_validation` — and on
them the codec is lossy.) -/
def stateJsonSafe (s : AppState) : Prop :=
  (∀ l ∈ s.inventory, lineJsonSafe l = true) ∧ (∀ r ∈ s.sales, saleJsonSafe r = true)

instance (s : AppState) : Decidable (stateJsonSafe s) :=
  @instDecidableAnd _ _ (List.decidableBAll _ _) (List.decidableBAll _ _)

/-- Source `handleExportData`: the snapshot is the current state of both
datasets plus `version: 1.0` and a timestamp.  The `JSON.stringify` on
export and `JSON.parse` on import are elided here: they are
value-faithful exactly on records whose numeric fields are all finite
(`lineJsonSafe` / `saleJsonSafe` / `stateJsonSafe`), while a `NaN`
field is written as `null` (`encodeNum`) and does not come back as
`NaN`, so every statement about the export/import composition carries a
`stateJsonSafe` hypothesis. -/
def handleExportData (s : AppState) (nowMs : Nat) : BackupData :=
  { inventory := .arr s.inventory
    sales := .arr s.sales
    version := ⟨10, 1⟩
    timestamp := nowMs }

/-- Source `handleImportData` (`reader.onload`): throws (leaving state
untouched) unless both `loadedData.inventory` and `loadedData.sales`
pass `Array.isArray`; on success the inventory array replaces the state
verbatim and the sales array is sorted descending by date and replaces
the state.  No field of the individual records is validated. -/
def handleImportData (s : AppState) (loadedData : BackupData) : OpOutcome :=
  match loadedData.inventory, loadedData.sales with
  | .arr inv, .arr sl => ⟨true, ⟨inv, sortSalesDesc sl⟩⟩
  | _, _ => ⟨false, s⟩

/-- Initial-mount load of the sales history (lines 71-74): the stored
array is sorted by date descending before entering the state. -/
def loadSales (loaded : List SaleRecord) : List SaleRecord := sortSalesDesc loaded

/-- Invariant of §3 on one line: the stored quantity is a number
strictly greater than zero (false for `NaN`). -/
def quantityPositive (l : InventoryLine) : Bool := jsPos l.quantity

/-- Invariant of §3 on the collection: every line has `quantity > 0`. -/
def invQuantitiesPositive (inv : List InventoryLine) : Prop :=
  ∀ l ∈ inv, quantityPositive l = true

/-- Characters produced for digits below ten are decimal digit characters. -/
theorem digitChar_isDigit : ∀ d, d < 10 → (Char.ofNat (48 + d)).isDigit = true := by
  decide

/-- Reading back a produced digit character gives the digit. -/
theorem digitVal_ofNat : ∀ d, d < 10 → digitVal (Char.ofNat (48 + d)) = d := by
  decide

/-- Folding the digit accumulator across an appended digit. -/
theorem digitsToNat_append (l : List Char) (c : Char) (a : Nat) :
    (l ++ [c]).foldl (fun a c => 10 * a + digitVal c) a
      = 10 * l.foldl (fun a c => 10 * a + digitVal c) a + digitVal c := by
  rw [List.foldl_append]
  rfl

/-- `natToDecAux` produces digit characters only and the big-endian
value of its output, continued from accumulator `a`, is
`a * 10 ^ length + n`. -/
theorem natToDecAux_spec :
    ∀ fuel n, n ≤ fuel →
      (∀ c ∈ natToDecAux fuel n, c.isDigit = true) ∧
      (∀ a : Nat, (natToDecAux fuel n).foldl (fun a c => 10 * a + digitVal c) a
          = a * 10 ^ (natToDecAux fuel n).length + n) := by
  intro fuel
  induction fuel with
  | zero =>
    intro n hn
    have hn0 : n = 0 := Nat.le_zero.mp hn
    subst hn0
    exact ⟨(by intro c hc; cases hc), (by intro a; simp [natToDecAux])⟩
  | succ fuel ih =>
    intro n hn
    by_cases h0 : n = 0
    · subst h0
      exact ⟨(by intro c hc; simp [natToDecAux] at hc), (by intro a; simp [natToDecAux])⟩
    · have hdiv : n / 10 < n := Nat.div_lt_self (Nat.pos_of_ne_zero h0) (by omega)
      have hle : n / 10 ≤ fuel := by omega
      obtain ⟨ihdig, ihval⟩ := ih (n / 10) hle
      have hmod : n % 10 < 10 := Nat.mod_lt _ (by omega)
      have hunf : natToDecAux (fuel + 1) n
          = natToDecAux fuel (n / 10) ++ [Char.ofNat (48 + n % 10)] := by
        simp [natToDecAux, h0]
      constructor
      · intro c hc
        rw [hunf] at hc
        rcases List.mem_append.mp hc with hc | hc
        · exact ihdig c hc
        · rcases List.mem_singleton.mp hc with rfl
          exact digitChar_isDigit _ hmod
      · intro a
        rw [hunf, digitsToNat_append, ihval a, digitVal_ofNat _ hmod,
          List.length_append, List.length_singleton]
        have : 10 * (a * 10 ^ (natToDecAux fuel (n / 10)).length + n / 10) + n % 10
            = a * (10 ^ (natToDecAux fuel (n / 10)).length * 10)
              + (10 * (n / 10) + n % 10) := by ring
        rw [this, Nat.div_add_mod, ← pow_succ]

/-- `natToDecAux` is nonempty on a positive input (with enough fuel). -/
theorem natToDecAux_ne_nil (fuel n : Nat) (h0 : n ≠ 0) :
    natToDecAux (fuel + 1) n ≠ [] := by
  simp [natToDecAux, h0]

/-- A digit character is not a space, a minus sign or a plus sign. -/
theorem isDigit_ne_special (c : Char) (h : c.isDigit = true) :
    c ≠ ' ' ∧ c ≠ '-' ∧ c ≠ '+' := by
  refine ⟨?_, ?_, ?_⟩ <;> intro he <;> rw [he] at h <;> exact absurd h (by decide)

/-- A list of digit characters survives `takeWhile Char.isDigit` whole. -/
theorem takeWhile_isDigit_eq_self :
    ∀ l : List Char, (∀ c ∈ l, c.isDigit = true) → l.takeWhile Char.isDigit = l := by
  intro l
  induction l with
  | nil => intro _; rfl
  | cons c rest ih =>
    intro h
    have hc : c.isDigit = true := h c (List.mem_cons_self _ _)
    rw [List.takeWhile_cons, hc]
    simp [ih fun x hx => h x (List.mem_cons_of_mem _ hx)]

/-- JS `parseInt` reads back exactly what JS `toString` printed for a
natural number. -/
theorem jsParseInt_natToDecimalString (n : Nat) :
    jsParseInt (natToDecimalString n) = some (n : Int) := by
  by_cases h0 : n = 0
  · subst h0
    decide
  · obtain ⟨hdig, hval⟩ := natToDecAux_spec (n + 1) n (Nat.le_succ n)
    have hne : natToDecAux (n + 1) n ≠ [] := natToDecAux_ne_nil n n h0
    rcases hl : natToDecAux (n + 1) n with _ | ⟨c, rest⟩
    · exact absurd hl hne
    · have hstr : natToDecimalString n = ⟨c :: rest⟩ := by
        rw [natToDecimalString, if_neg h0, hl]
      have hcdig : c.isDigit = true := by
        have := hdig c
        rw [hl] at this
        exact this (List.mem_cons_self _ _)
      obtain ⟨hsp, hminus, hplus⟩ := isDigit_ne_special c hcdig
      have hdrop : (c :: rest).dropWhile (· == ' ') = c :: rest := by
        rw [List.dropWhile_cons]
        simp [hsp]
      have hdata : (⟨c :: rest⟩ : String).data = c :: rest := rfl
      rw [hstr, jsParseInt, hdata, hdrop]
      simp only [if_neg hminus, if_neg hplus]
      have htake : (c :: rest).takeWhile Char.isDigit = c :: rest := by
        apply takeWhile_isDigit_eq_self
        intro x hx
        apply hdig
        rw [hl]
        exact hx
      rw [readDigits, htake]
      have hemp : (c :: rest).isEmpty = false := rfl
      simp only [hemp, Bool.false_eq_true, if_false, Option.map_some']
      have hv := hval 0
      rw [hl] at hv
      simp only [Nat.zero_mul, Nat.zero_add] at hv
      rw [digitsToNat] at *
      simp [hv]

/-- One accumulation step never decreases the running maximum. -/
theorem le_serialStep (m : Int) (item : InventoryLine) : m ≤ serialStep m item := by
  rw [serialStep]
  rcases jsParseInt item.serialNo with _ | v
  · exact le_refl m
  · by_cases h : v > m
    · simp only [if_pos h]
      exact le_of_lt h
    · simp only [if_neg h]
      exact le_refl m

/-- One accumulation step dominates the parsed value of its item. -/
theorem parse_le_serialStep (m : Int) (item : InventoryLine) (v : Int)
    (h : jsParseInt item.serialNo = some v) : v ≤ serialStep m item := by
  rw [serialStep, h]
  by_cases hv : v > m
  · simp only [if_pos hv]; exact le_refl v
  · simp only [if_neg hv]; omega

/-- The fold never decreases its accumulator. -/
theorem le_foldl_serialStep : ∀ (l : List InventoryLine) (m : Int),
    m ≤ l.foldl serialStep m := by
  intro l
  induction l with
  | nil => intro m; exact le_refl m
  | cons x xs ih =>
    intro m
    exact le_trans (le_serialStep m x) (ih (serialStep m x))

/-- The fold dominates the parsed serial of every member. -/
theorem mem_parse_le_foldl : ∀ (l : List InventoryLine) (m : Int) (item : InventoryLine)
    (v : Int), item ∈ l → jsParseInt item.serialNo = some v → v ≤ l.foldl serialStep m := by
  intro l
  induction l with
  | nil => intro m item v hm; cases hm
  | cons x xs ih =>
    intro m item v hm hp
    rcases List.mem_cons.mp hm with rfl | hm
    · exact le_trans (parse_le_serialStep m item v hp) (le_foldl_serialStep xs _)
    · exact ih _ item v hm hp

/-- `maxSerial` is never negative (it starts at 0 and only grows). -/
theorem maxSerial_nonneg (inv : List InventoryLine) : 0 ≤ maxSerial inv :=
  le_foldl_serialStep inv 0

/-- `maxSerial` dominates every parsable serial in the inventory. -/
theorem parse_le_maxSerial (inv : List InventoryLine) (item : InventoryLine) (v : Int)
    (hm : item ∈ inv) (hp : jsParseInt item.serialNo = some v) : v ≤ maxSerial inv :=
  mem_parse_le_foldl inv 0 item v hm hp

/-- The next serial string parses back to `maxSerial + 1`. -/
theorem jsParseInt_getNextSerialNo (inv : List InventoryLine) :
    jsParseInt (getNextSerialNo inv) = some (maxSerial inv + 1) := by
  have h0 : 0 ≤ maxSerial inv := maxSerial_nonneg inv
  rw [getNextSerialNo, intToString, if_neg (by omega), jsParseInt_natToDecimalString]
  congr 1
  omega

/-- Appending a line whose serial parses to `maxSerial + 1` raises
`maxSerial` by exactly one. -/
theorem maxSerial_append (inv : List InventoryLine) (l : InventoryLine)
    (hp : jsParseInt l.serialNo = some (maxSerial inv + 1)) :
    maxSerial (inv ++ [l]) = maxSerial inv + 1 := by
  rw [maxSerial, List.foldl_append]
  show serialStep (maxSerial inv) l = maxSerial inv + 1
  rw [serialStep, hp]
  have h : maxSerial inv < maxSerial inv + 1 := by omega
  simp [h]

/-- First stock-entry form of the two-AddStock trace. -/
def addForm1 : NewItemForm :=
  { code := "c1", group := "", name := "n1", quantity := "2", rate := "3" }

/-- Second stock-entry form of the two-AddStock trace. -/
def addForm2 : NewItemForm :=
  { code := "c2", group := "", name := "n2", quantity := "3", rate := "4" }

/-- State after `AddStock(addForm1)` at t = 1000 on an empty ledger. -/
def stateAfterAdd1 : AppState := (handleAddItem ⟨[], []⟩ addForm1 1000).state

/-- State after a further `AddStock(addForm2)` at t = 2000. -/
def stateAfterAdd2 : AppState := (handleAddItem stateAfterAdd1 addForm2 2000).state

/-- The line the second AddStock call created (as `decide` confirms in
`C2_sale_deletes_unrelated_line` below by evaluating the trace). -/
def addedLine2 : InventoryLine :=
  ⟨"", "2", "c2", "", "n2", some 3, some ⟨4, 0⟩, some ⟨1200, 2⟩, 2000⟩

/-- C1: the claim says every pair of distinct AddStock calls creates
lines with different ids.  The code disagrees: in the `itemToAdd`
literal the `...newItem` spread comes after `id: newId` and overrides it
with the form's `id` field, which is always `''`, so both lines of this
trace (two successful AddStock calls at distinct times 1000 and 2000)
carry the identical id `""`. -/
theorem C1_ids_not_fresh :
    (handleAddItem ⟨[], []⟩ addForm1 1000).ok = true ∧
    (handleAddItem stateAfterAdd1 addForm2 2000).ok = true ∧
    stateAfterAdd2.inventory.map (fun l => l.id) = ["", ""] := by
  decide

/-- C2: the claim says a successful depleting RecordSale removes exactly
the sold line and leaves every other line untouched.  The code removes
every line whose `id` equals the sold line's id, and both AddStock-made
lines carry id `""` (see `C1_ids_not_fresh`), so depleting the second
line (quantity 3, sold 3) empties the whole inventory: the unrelated
first line (`"n1"`, which this theorem shows was present) is deleted
too. -/
theorem C2_sale_deletes_unrelated_line :
    addedLine2 ∈ stateAfterAdd2.inventory ∧
    (stateAfterAdd2.inventory.filter (fun l => l.name = "n1")).length = 1 ∧
    (handleRecordSale stateAfterAdd2 addedLine2 3 3000).ok = true ∧
    (handleRecordSale stateAfterAdd2 addedLine2 3 3000).state.inventory = [] := by
  decide

/-- The `jsLeZeroInt` test holds exactly on nonpositive parsed integers. -/
theorem jsLeZeroInt_eq_true_iff (x : Option Int) :
    jsLeZeroInt x = true ↔ ∃ v, x = some v ∧ v ≤ 0 := by
  cases x <;> simp [jsLeZeroInt]

/-- The `jsLeZeroDec` test holds exactly on nonpositive parsed decimals. -/
theorem jsLeZeroDec_eq_true_iff (x : Option JsDec) :
    jsLeZeroDec x = true ↔ ∃ v, x = some v ∧ v.mant ≤ 0 := by
  cases x <;> simp [jsLeZeroDec]

/-- The line `handleAddItem` appends on success. -/
def addItemLine (s : AppState) (f : NewItemForm) (nowMs : Nat) : InventoryLine :=
  { id := ""
    serialNo := getNextSerialNo s.inventory
    code := f.code
    group := f.group
    name := f.name
    quantity := jsParseInt f.quantity
    rate := jsParseFloat f.rate
    amount := calculateAmount (intOptToDec (jsParseInt f.quantity)) (jsParseFloat f.rate)
    dateAdded := nowMs }

/-- `handleAddItem` fails (and returns the state unchanged) exactly when
its validation condition holds, and otherwise appends `addItemLine`. -/
theorem handleAddItem_eq (s : AppState) (f : NewItemForm) (nowMs : Nat) :
    handleAddItem s f nowMs =
      if f.code = "" ∨ f.name = "" ∨ jsLeZeroInt (jsParseInt f.quantity)
          ∨ jsLeZeroDec (jsParseFloat f.rate) then ⟨false, s⟩
      else ⟨true, ⟨s.inventory ++ [addItemLine s f nowMs], s.sales⟩⟩ := by
  rw [handleAddItem, addItemLine]

/-- The sale record `handleRecordSale` creates on success. -/
def recordSaleRecord (item : InventoryLine) (quantityToSell : Int) (nowMs : Nat) :
    SaleRecord :=
  { id := natToDecimalString nowMs
    inventoryId := item.id
    serialNo := item.serialNo
    code := item.code
    group := item.group
    name := item.name
    rate := item.rate
    quantitySold := quantityToSell
    amountSold := calculateAmount (some ⟨quantityToSell, 0⟩) item.rate
    saleDate := nowMs }

/-- `handleRecordSale` fails (returning the state unchanged) exactly when
its guard holds; otherwise it updates or filters the inventory by the
sold line's id and inserts the new sale into the re-sorted history. -/
theorem handleRecordSale_eq (s : AppState) (item : InventoryLine) (quantityToSell : Int)
    (nowMs : Nat) :
    handleRecordSale s item quantityToSell nowMs =
      if quantityToSell ≤ 0 ∨ jsGtNum quantityToSell item.quantity then ⟨false, s⟩
      else
        ⟨true,
          ⟨if jsPos (jsSub item.quantity quantityToSell) then
              s.inventory.map (fun invItem =>
                if invItem.id = item.id then
                  { invItem with quantity := jsSub item.quantity quantityToSell }
                else invItem)
            else s.inventory.filter (fun invItem => invItem.id ≠ item.id),
            sortSalesDesc (recordSaleRecord item quantityToSell nowMs :: s.sales)⟩⟩ := by
  rw [handleRecordSale, recordSaleRecord]

/-- C7 counterexample: the claim says AddStock must fail whenever the
quantity is not a positive integer.  An empty quantity string parses to
`NaN` (`jsParseInt "" = none`) and every JS comparison with `NaN` is
false, so the guard `parsedQuantity <= 0` does not fire: the call
succeeds and appends a line, contradicting the claim. -/
theorem C7_quantity_nan_passes_validation :
    jsParseInt "" = none ∧
    (handleAddItem ⟨[], []⟩ ⟨"c", "", "n", "", "5"⟩ 7).ok = true ∧
    (handleAddItem ⟨[], []⟩ ⟨"c", "", "n", "", "5"⟩ 7).state.inventory.length = 1 := by
  decide

/-- C7 (amended): AddStock fails, mutating nothing, exactly when the
code is empty, the name is empty, the quantity parses to an integer
`<= 0`, or the rate parses to a value `<= 0`; a quantity or rate that
does not parse at all (`NaN`) passes validation.  On success the new
line is appended and the sales history is untouched. -/
theorem C7_addStock_validation : ∀ (s : AppState) (f : NewItemForm) (nowMs : Nat),
    ((handleAddItem s f nowMs).ok = false ↔
      (f.code = "" ∨ f.name = "" ∨ (∃ q, jsParseInt f.quantity = some q ∧ q ≤ 0)
        ∨ (∃ r, jsParseFloat f.rate = some r ∧ r.mant ≤ 0)))
    ∧ ((handleAddItem s f nowMs).ok = false → (handleAddItem s f nowMs).state = s)
    ∧ ((handleAddItem s f nowMs).ok = true →
        (handleAddItem s f nowMs).state.inventory = s.inventory ++ [addItemLine s f nowMs]
        ∧ (handleAddItem s f nowMs).state.sales = s.sales) := by
  intro s f nowMs
  rw [handleAddItem_eq]
  by_cases h : f.code = "" ∨ f.name = "" ∨ jsLeZeroInt (jsParseInt f.quantity) = true
      ∨ jsLeZeroDec (jsParseFloat f.rate) = true
  · rw [if_pos h]
    refine ⟨⟨fun _ => ?_, fun _ => rfl⟩, fun _ => rfl, fun hok => by simp at hok⟩
    rcases h with h | h | h | h
    · exact Or.inl h
    · exact Or.inr (Or.inl h)
    · exact Or.inr (Or.inr (Or.inl ((jsLeZeroInt_eq_true_iff _).mp h)))
    · exact Or.inr (Or.inr (Or.inr ((jsLeZeroDec_eq_true_iff _).mp h)))
  · rw [if_neg h]
    refine ⟨⟨fun habs => by simp at habs, fun hrhs => ?_⟩, fun habs => by simp at habs,
      fun _ => ⟨rfl, rfl⟩⟩
    exfalso
    apply h
    rcases hrhs with h1 | h1 | h1 | h1
    · exact Or.inl h1
    · exact Or.inr (Or.inl h1)
    · exact Or.inr (Or.inr (Or.inl ((jsLeZeroInt_eq_true_iff _).mpr h1)))
    · exact Or.inr (Or.inr (Or.inr ((jsLeZeroDec_eq_true_iff _).mpr h1)))

/-- C7 witness: a concrete quantity `"0"` fails validation and leaves
the (empty) state unchanged, through `C7_addStock_validation`. -/
theorem C7_addStock_validation_witness :
    (handleAddItem ⟨[], []⟩ ⟨"c", "", "n", "0", "5"⟩ 9).state = ⟨[], []⟩ :=
  (C7_addStock_validation ⟨[], []⟩ ⟨"c", "", "n", "0", "5"⟩ 9).2.1
    ((C7_addStock_validation ⟨[], []⟩ ⟨"c", "", "n", "0", "5"⟩ 9).1.mpr
      (Or.inr (Or.inr (Or.inl ⟨0, (by decide), (by decide)⟩))))

/-- C8: for a line of the inventory whose stored quantity is an integer
`q`, RecordSale fails — leaving the whole state unchanged — exactly when
the requested quantity is `<= 0` or exceeds `q`, and succeeds exactly
when `1 <= quantityToSell <= q`.  (The operation receives the line
itself from the inventory row, so the missing-line case of the claim
cannot arise at this interface.) -/
theorem C8_recordSale_guard : ∀ (s : AppState) (item : InventoryLine)
    (quantityToSell : Int) (nowMs : Nat) (q : Int),
    item ∈ s.inventory → item.quantity = some q →
    (((handleRecordSale s item quantityToSell nowMs).ok = false) ↔
      (quantityToSell ≤ 0 ∨ q < quantityToSell))
    ∧ ((handleRecordSale s item quantityToSell nowMs).ok = false →
        (handleRecordSale s item quantityToSell nowMs).state = s)
    ∧ (((handleRecordSale s item quantityToSell nowMs).ok = true) ↔
      (1 ≤ quantityToSell ∧ quantityToSell ≤ q)) := by
  intro s item quantityToSell nowMs q _ hq
  rw [handleRecordSale_eq]
  have hgt : jsGtNum quantityToSell item.quantity = true ↔ q < quantityToSell := by
    rw [hq]
    simp [jsGtNum]
  by_cases h : quantityToSell ≤ 0 ∨ jsGtNum quantityToSell item.quantity = true
  · rw [if_pos h]
    have hcond : quantityToSell ≤ 0 ∨ q < quantityToSell := by
      rcases h with h | h
      · exact Or.inl h
      · exact Or.inr (hgt.mp h)
    refine ⟨⟨fun _ => hcond, fun _ => rfl⟩, fun _ => rfl, ?_⟩
    constructor
    · intro habs
      simp at habs
    · intro hok
      omega
  · rw [if_neg h]
    have hcond : ¬(quantityToSell ≤ 0 ∨ q < quantityToSell) := by
      intro hc
      apply h
      rcases hc with hc | hc
      · exact Or.inl hc
      · exact Or.inr (hgt.mpr hc)
    refine ⟨⟨fun habs => by simp at habs, fun hc => absurd hc hcond⟩,
      fun habs => by simp at habs, ?_⟩
    constructor
    · intro _
      omega
    · intro _
      rfl

/-- C8 witness: selling 0 units of a concrete 2-unit line fails and
leaves the state unchanged, through `C8_recordSale_guard`. -/
theorem C8_recordSale_guard_witness :
    (handleRecordSale ⟨[addedLine2], []⟩ addedLine2 0 50).state = ⟨[addedLine2], []⟩ :=
  (C8_recordSale_guard ⟨[addedLine2], []⟩ addedLine2 0 50 3 (by decide) (by decide)).2.1
    ((C8_recordSale_guard ⟨[addedLine2], []⟩ addedLine2 0 50 3 (by decide)
      (by decide)).1.mpr (Or.inl (by decide)))

/-- C9: restore fails — leaving both collections untouched — exactly
when the parsed payload's `inventory` or `sales` field is not an array;
on success the state is wholesale-replaced: the inventory is the
payload's array verbatim (any records at all are accepted: no
field-level validation) and the sales history is the payload's array
re-sorted newest-first (the same records, permuted). -/
theorem C9_import_validation : ∀ (s : AppState) (p : BackupData),
    ((handleImportData s p).ok = false ↔
      (p.inventory = JsonField.nonArray ∨ p.sales = JsonField.nonArray))
    ∧ ((handleImportData s p).ok = false → (handleImportData s p).state = s)
    ∧ (∀ inv sl, p.inventory = JsonField.arr inv → p.sales = JsonField.arr sl →
        (handleImportData s p).state.inventory = inv
        ∧ (handleImportData s p).state.sales = sortSalesDesc sl
        ∧ List.Perm (handleImportData s p).state.sales sl) := by
  intro s p
  obtain ⟨pinv, psl, pv, pt⟩ := p
  cases pinv with
  | arr inv =>
    cases psl with
    | arr sl =>
      refine ⟨by simp [handleImportData], by simp [handleImportData], ?_⟩
      intro inv2 sl2 h1 h2
      cases h1
      cases h2
      exact ⟨rfl, rfl, List.perm_insertionSort salesLe sl⟩
    | nonArray =>
      exact ⟨by simp [handleImportData], fun _ => rfl, by simp⟩
  | nonArray =>
    cases psl with
    | arr sl =>
      exact ⟨by simp [handleImportData], fun _ => rfl, by simp⟩
    | nonArray =>
      exact ⟨by simp [handleImportData], fun _ => rfl, by simp⟩

/-- C9 witness: the spec's own test vector — a payload whose `inventory`
is not an array and whose `sales` is `[]` — fails and leaves the current
state unchanged, through `C9_import_validation`. -/
theorem C9_import_validation_witness :
    (handleImportData stateAfterAdd2 ⟨JsonField.nonArray, JsonField.arr [], ⟨10, 1⟩, 0⟩).state
      = stateAfterAdd2 :=
  (C9_import_validation stateAfterAdd2 ⟨JsonField.nonArray, JsonField.arr [], ⟨10, 1⟩, 0⟩).2.1
    ((C9_import_validation stateAfterAdd2
      ⟨JsonField.nonArray, JsonField.arr [], ⟨10, 1⟩, 0⟩).1.mpr (Or.inl rfl))

/-- C10: the sales history is sorted newest-first after every operation
that touches it: unconditionally after a successful RecordSale (the
whole array is re-sorted around the prepended sale), after the initial
bulk load, after a successful restore, and after clearing the history;
operations that do not touch sales (AddStock, deleting the inventory)
preserve sortedness. -/
theorem C10_sales_sorted_desc :
    (∀ (s : AppState) (item : InventoryLine) (quantityToSell : Int) (nowMs : Nat),
      (handleRecordSale s item quantityToSell nowMs).ok = true →
      List.Sorted salesLe (handleRecordSale s item quantityToSell nowMs).state.sales)
    ∧ (∀ loaded, List.Sorted salesLe (loadSales loaded))
    ∧ (∀ (s : AppState) (p : BackupData), (handleImportData s p).ok = true →
      List.Sorted salesLe (handleImportData s p).state.sales)
    ∧ (∀ s, List.Sorted salesLe (handleDeleteRecords s DeleteType.salesHistory).sales)
    ∧ (∀ (s : AppState) (f : NewItemForm) (nowMs : Nat), List.Sorted salesLe s.sales →
      List.Sorted salesLe (handleAddItem s f nowMs).state.sales)
    ∧ (∀ s : AppState, List.Sorted salesLe s.sales →
      List.Sorted salesLe (handleDeleteRecords s DeleteType.inventoryStock).sales) := by
  refine ⟨?_, ?_, ?_, ?_, ?_, ?_⟩
  · intro s item quantityToSell nowMs hok
    rw [handleRecordSale_eq] at hok ⊢
    by_cases h : quantityToSell ≤ 0 ∨ jsGtNum quantityToSell item.quantity = true
    · rw [if_pos h] at hok
      simp at hok
    · rw [if_neg h]
      exact List.sorted_insertionSort salesLe _
  · intro loaded
    exact List.sorted_insertionSort salesLe _
  · intro s p hok
    obtain ⟨pinv, psl, pv, pt⟩ := p
    cases pinv with
    | arr inv =>
      cases psl with
      | arr sl => exact List.sorted_insertionSort salesLe _
      | nonArray => simp [handleImportData] at hok
    | nonArray =>
      cases psl <;> simp [handleImportData] at hok
  · intro s
    exact List.sorted_nil
  · intro s f nowMs hs
    rw [handleAddItem_eq]
    by_cases h : f.code = "" ∨ f.name = "" ∨ jsLeZeroInt (jsParseInt f.quantity) = true
        ∨ jsLeZeroDec (jsParseFloat f.rate) = true
    · rw [if_pos h]
      exact hs
    · rw [if_neg h]
      exact hs
  · intro s hs
    exact hs

/-- C10 witness: a concrete successful sale yields a sorted history,
through the first conjunct of `C10_sales_sorted_desc`. -/
theorem C10_sales_sorted_desc_witness :
    List.Sorted salesLe (handleRecordSale ⟨[addedLine2], []⟩ addedLine2 1 70).state.sales :=
  C10_sales_sorted_desc.1 ⟨[addedLine2], []⟩ addedLine2 1 70 (by decide)

/-- C5: exporting and immediately importing the produced snapshot
succeeds and reproduces the exact pre-export state: the inventory array
round-trips verbatim (so also up to any reordering) and the sales
array, being sorted newest-first (the invariant every operation
maintains, see C10), is left in its original order by the stable
re-sort on import.  The statement is scoped by two well-formedness
hypotheses on the pre-export state: `stateJsonSafe` confines it to
states with no `NaN` numeric field — the domain on which the elided
`JSON.stringify` / `JSON.parse` codec is value-faithful, since a `NaN`
field is written as `null` and comes back as a different JS value
(`encodeNum_eq_null_iff`) — and sortedness of the sales history is the
§3 collection invariant (established unconditionally by every
sales-touching operation, see C10). -/
theorem C5_export_import_roundtrip : ∀ (s : AppState) (nowMs : Nat),
    stateJsonSafe s →
    List.Sorted salesLe s.sales →
    (handleImportData s (handleExportData s nowMs)).ok = true
    ∧ (handleImportData s (handleExportData s nowMs)).state = s := by
  intro s nowMs _ hs
  refine ⟨rfl, ?_⟩
  show AppState.mk s.inventory (sortSalesDesc s.sales) = s
  rw [sortSalesDesc, hs.insertionSort_eq]

/-- A sale dated 2000 ms, as sold from `addedLine2`. -/
def saleNewer : SaleRecord :=
  ⟨"2000", "", "2", "c2", "", "n2", some ⟨4, 0⟩, 1, some ⟨400, 2⟩, 2000⟩

/-- An older sale dated 1000 ms. -/
def saleOlder : SaleRecord :=
  ⟨"1000", "", "2", "c2", "", "n2", some ⟨4, 0⟩, 2, some ⟨800, 2⟩, 1000⟩

/-- C5 witness: a concrete two-sale, one-line ledger (all numeric
fields finite, sales sorted) round-trips to itself, through
`C5_export_import_roundtrip`. -/
theorem C5_export_import_roundtrip_witness :
    (handleImportData ⟨[addedLine2], [saleNewer, saleOlder]⟩
      (handleExportData ⟨[addedLine2], [saleNewer, saleOlder]⟩ 99)).state
      = ⟨[addedLine2], [saleNewer, saleOlder]⟩ :=
  (C5_export_import_roundtrip ⟨[addedLine2], [saleNewer, saleOlder]⟩ 99 (by decide)
    (by decide)).2

instance (inv : List InventoryLine) : Decidable (invQuantitiesPositive inv) :=
  List.decidableBAll _ inv

/-- A line with quantity 0, as a backup payload can carry. -/
def zeroQuantityLine : InventoryLine :=
  ⟨"z", "9", "c", "", "n", some 0, some ⟨1, 0⟩, some ⟨0, 2⟩, 0⟩

/-- C3 counterexample: the claim says the `quantity > 0` invariant holds
after every operation including restore.  Restore only checks that the
payload fields are arrays, so importing a payload whose inventory holds
a zero-quantity line succeeds and leaves that line in the collection,
violating the invariant. -/
theorem C3_restore_keeps_zero_quantity :
    (handleImportData ⟨[], []⟩
      ⟨JsonField.arr [zeroQuantityLine], JsonField.arr [], ⟨10, 1⟩, 0⟩).ok = true ∧
    ¬ invQuantitiesPositive (handleImportData ⟨[], []⟩
      ⟨JsonField.arr [zeroQuantityLine], JsonField.arr [], ⟨10, 1⟩, 0⟩).state.inventory := by
  decide

/-- C3 (amended): the `quantity > 0` invariant is preserved by AddStock
(whenever the quantity input actually parses to an integer), by
RecordSale (valid or not: the updated line keeps the remaining quantity
only when it is `> 0`, and is removed otherwise), and by both bulk
deletes; restore instead installs the payload's inventory array
verbatim, with no field-level validation, so it alone can introduce
lines with `quantity <= 0` (or `NaN`). -/
theorem C3_quantity_invariant :
    (∀ (s : AppState) (f : NewItemForm) (nowMs : Nat),
      invQuantitiesPositive s.inventory → (handleAddItem s f nowMs).ok = true →
      jsParseInt f.quantity ≠ none →
      invQuantitiesPositive (handleAddItem s f nowMs).state.inventory)
    ∧ (∀ (s : AppState) (item : InventoryLine) (quantityToSell : Int) (nowMs : Nat),
      invQuantitiesPositive s.inventory →
      invQuantitiesPositive (handleRecordSale s item quantityToSell nowMs).state.inventory)
    ∧ (∀ (s : AppState) (dt : DeleteType),
      invQuantitiesPositive s.inventory →
      invQuantitiesPositive (handleDeleteRecords s dt).inventory)
    ∧ (∀ (s : AppState) (inv : List InventoryLine) (sl : List SaleRecord)
        (v : JsDec) (t : Nat),
      (handleImportData s ⟨JsonField.arr inv, JsonField.arr sl, v, t⟩).state.inventory
        = inv) := by
  refine ⟨?_, ?_, ?_, ?_⟩
  · intro s f nowMs hpre hok hq
    rw [handleAddItem_eq] at hok ⊢
    by_cases h : f.code = "" ∨ f.name = "" ∨ jsLeZeroInt (jsParseInt f.quantity) = true
        ∨ jsLeZeroDec (jsParseFloat f.rate) = true
    · rw [if_pos h] at hok
      simp at hok
    · rw [if_neg h]
      intro l hl
      rcases List.mem_append.mp hl with hl | hl
      · exact hpre l hl
      · rcases List.mem_singleton.mp hl with rfl
        show jsPos (jsParseInt f.quantity) = true
        have hnle : ¬ (jsLeZeroInt (jsParseInt f.quantity) = true) := by
          intro hc
          exact h (Or.inr (Or.inr (Or.inl hc)))
        rcases hcase : jsParseInt f.quantity with _ | q
        · exact absurd hcase hq
        · rw [hcase] at hnle
          simp [jsLeZeroInt] at hnle
          simp [jsPos]
          omega
  · intro s item quantityToSell nowMs hpre
    rw [handleRecordSale_eq]
    by_cases h : quantityToSell ≤ 0 ∨ jsGtNum quantityToSell item.quantity = true
    · rw [if_pos h]
      exact hpre
    · rw [if_neg h]
      by_cases hpos : jsPos (jsSub item.quantity quantityToSell) = true
      · rw [if_pos hpos]
        intro l hl
        rcases List.mem_map.mp hl with ⟨l0, hl0, rfl⟩
        by_cases hid : l0.id = item.id
        · rw [if_pos hid]
          exact hpos
        · rw [if_neg hid]
          exact hpre l0 hl0
      · rw [if_neg hpos]
        intro l hl
        exact hpre l (List.mem_of_mem_filter hl)
  · intro s dt hpre
    cases dt with
    | salesHistory => exact hpre
    | inventoryStock => intro l hl; cases hl
  · intro s inv sl v t
    rfl

/-- C3 witness: the invariant survives a concrete valid sale, through
the RecordSale conjunct of `C3_quantity_invariant`. -/
theorem C3_quantity_invariant_witness :
    invQuantitiesPositive
      (handleRecordSale ⟨[addedLine2], []⟩ addedLine2 1 9).state.inventory :=
  C3_quantity_invariant.2.1 ⟨[addedLine2], []⟩ addedLine2 1 9 (by decide)

/-- A restored line with serial "1", distinct id "a" and stock 5. -/
def importedLine : InventoryLine :=
  ⟨"a", "1", "c", "", "n", some 5, some ⟨1, 0⟩, some ⟨500, 2⟩, 0⟩

/-- Form used by both AddStock calls of the serial trace. -/
def serialForm : NewItemForm :=
  { code := "c", group := "", name := "n", quantity := "1", rate := "2" }

/-- Serial trace, step 1: restore an inventory holding `importedLine`. -/
def serialTraceS1 : AppState :=
  (handleImportData ⟨[], []⟩
    ⟨JsonField.arr [importedLine], JsonField.arr [], ⟨10, 1⟩, 0⟩).state

/-- Serial trace, step 2: AddStock at t = 1000 (assigns serial "2"). -/
def serialTraceS2 : AppState := (handleAddItem serialTraceS1 serialForm 1000).state

/-- The line created in step 2 (`decide` confirms it below). -/
def serialAddedLine : InventoryLine :=
  ⟨"", "2", "c", "", "n", some 1, some ⟨2, 0⟩, some ⟨200, 2⟩, 1000⟩

/-- Serial trace, step 3: deplete the serial-"2" line (quantity 1). -/
def serialTraceS3 : AppState :=
  (handleRecordSale serialTraceS2 serialAddedLine 1 2000).state

/-- C4 counterexample: the claim says AddStock-assigned serials are
strictly increasing with no duplicates, deleted serials being reissued
only after full deletion.  In this trace the first AddStock is assigned
serial "2"; depleting that line removes only it, the serial-"1" line
remaining throughout (no full deletion); yet the next AddStock is
assigned "2" again — a duplicate, because `getNextSerialNo` is
`max + 1` over the *current* inventory and the maximum line was
removed. -/
theorem C4_serial_reissued_without_full_deletion :
    getNextSerialNo serialTraceS1.inventory = "2" ∧
    (handleAddItem serialTraceS1 serialForm 1000).ok = true ∧
    serialAddedLine ∈ serialTraceS2.inventory ∧
    (handleRecordSale serialTraceS2 serialAddedLine 1 2000).ok = true ∧
    importedLine ∈ serialTraceS3.inventory ∧
    getNextSerialNo serialTraceS3.inventory = "2" := by
  decide

/-- C4 (amended): an empty inventory yields serial "1"; the next serial
always parses back to `maxSerial + 1`, which strictly exceeds every
parsable serial currently held (so serials strictly increase over
AddStock calls with no intervening removals, never collide with a
currently-held serial, and a serial below the surviving maximum is
never reissued); each successful AddStock appends a line carrying that
serial and raises the maximum by exactly one.  However, removing the
maximum-serial line — by a depleting sale or restore, not only by full
deletion — lets a later AddStock reissue its serial
(`C4_serial_reissued_without_full_deletion`). -/
theorem C4_next_serial :
    getNextSerialNo [] = "1"
    ∧ (∀ inv, jsParseInt (getNextSerialNo inv) = some (maxSerial inv + 1))
    ∧ (∀ (inv : List InventoryLine) (item : InventoryLine) (v : Int),
        item ∈ inv → jsParseInt item.serialNo = some v → v < maxSerial inv + 1)
    ∧ (∀ (s : AppState) (f : NewItemForm) (nowMs : Nat),
        (handleAddItem s f nowMs).ok = true →
        (handleAddItem s f nowMs).state.inventory
          = s.inventory ++ [addItemLine s f nowMs]
        ∧ (addItemLine s f nowMs).serialNo = getNextSerialNo s.inventory
        ∧ maxSerial (handleAddItem s f nowMs).state.inventory
          = maxSerial s.inventory + 1) := by
  refine ⟨by decide, jsParseInt_getNextSerialNo, ?_, ?_⟩
  · intro inv item v hm hp
    have := parse_le_maxSerial inv item v hm hp
    omega
  · intro s f nowMs hok
    rw [handleAddItem_eq] at hok ⊢
    by_cases h : f.code = "" ∨ f.name = "" ∨ jsLeZeroInt (jsParseInt f.quantity) = true
        ∨ jsLeZeroDec (jsParseFloat f.rate) = true
    · rw [if_pos h] at hok
      simp at hok
    · rw [if_neg h]
      refine ⟨rfl, rfl, ?_⟩
      show maxSerial (s.inventory ++ [addItemLine s f nowMs]) = maxSerial s.inventory + 1
      apply maxSerial_append
      show jsParseInt (getNextSerialNo s.inventory) = some (maxSerial s.inventory + 1)
      exact jsParseInt_getNextSerialNo s.inventory

/-- C4 witness: the strict-domination conjunct of `C4_next_serial` at a
concrete one-line inventory. -/
theorem C4_next_serial_witness : (1 : Int) < maxSerial [importedLine] + 1 :=
  C4_next_serial.2.2.1 [importedLine] importedLine 1 (by decide) (by decide)
